import Mathlib

/-!
# Verification of the Klaviyo MCP campaign-search pipeline

A shallow embedding of `api/mcp.js` (`runSearchCampaigns` and its helpers)
and proofs about the claims of the specification.

Modelling conventions:
* JavaScript values arising from JSON are modelled by the inductive `J`
  (no `undefined` constructor: an absent value is `Option.none`, JS `null`
  is `J.null`).
* JavaScript numbers are modelled by `JsNum`: either a finite integer or
  `NaN`.  Fractional numbers are outside the modelled domain (none of the
  verified claims depends on them; `Array.prototype.slice` truncates its
  argument anyway).
* Strings are ASCII-focused: `toLowerCase`, `trim` and `\s` agree with the
  JS semantics on the ASCII range, which covers the inputs of every claim.
-/

namespace Klaviyo

/-- A JavaScript number: a finite integer or `NaN`. -/
inductive JsNum where
  | nan
  | int (n : Int)
deriving DecidableEq, Repr

/-- A JSON/JavaScript value (as produced by `JSON.parse`). -/
inductive J where
  | null
  | bool (b : Bool)
  | num (n : JsNum)
  | str (s : String)
  | arr (xs : List J)
  | obj (fs : List (String × J))

/-- `true` for string/number/boolean/null values, `false` for arrays and
objects.  JS `Set` membership and `===` are structural exactly on these. -/
def J.isPrim : J → Bool
  | .arr _ => false
  | .obj _ => false
  | _ => true

/-- JS truthiness of a value; `none` models `undefined`. -/
def jTruthy : Option J → Bool
  | none => false
  | some .null => false
  | some (.bool b) => b
  | some (.num .nan) => false
  | some (.num (.int n)) => n != 0
  | some (.str s) => s != ""
  | some (.arr _) => true
  | some (.obj _) => true

/-- Property read `v[k]` for our key names: defined on objects, `undefined`
(i.e. `none`) on every other value (including `null`, which is safe here
because the source guards every read on a possibly-null value with `?.`
or a truthiness test). -/
def jget : J → String → Option J
  | .obj fs, k => fs.lookup k
  | _, _ => none

/-- `a?.k` on an optional value. -/
def jgetO (v : Option J) (k : String) : Option J :=
  match v with
  | some w => jget w k
  | none => none

/-- `a?.[i]` array indexing (non-arrays give `undefined`). -/
def jIndexO (v : Option J) (i : Nat) : Option J :=
  match v with
  | some (.arr xs) => xs.get? i
  | _ => none

/-- JS `a || b` on possibly-undefined values: the left value when truthy,
otherwise the right value. -/
def jOr (a b : Option J) : Option J :=
  if jTruthy a then a else b

/-- JS `a && b`: the right value when the left is truthy, otherwise the
left value. -/
def jAnd (a b : Option J) : Option J :=
  if jTruthy a then b else a

/-- First truthy value of a candidate list, modelling an
`x1 || x2 || ... || null` chain (the trailing `null`/falsy tail collapses
to `none`). -/
def firstTruthy : List (Option J) → Option J
  | [] => none
  | v :: vs => if jTruthy v then v else firstTruthy vs

/-- `x || d` where the default is a plain value. -/
def jValOr (a : Option J) (d : J) : J :=
  match a with
  | some v => if jTruthy (some v) then v else d
  | none => d

/-- JS `===` between two possibly-undefined values (as in
`i.id === messageRelationship.id`).  `undefined === undefined` is true,
`NaN === NaN` is false; composite values compare by reference, and two
distinct nodes of a parsed JSON document are distinct references, so the
comparison is false there. -/
def jStrictEqO : Option J → Option J → Bool
  | none, none => true
  | some .null, some .null => true
  | some (.bool a), some (.bool b) => a == b
  | some (.num (.int a)), some (.num (.int b)) => a == b
  | some (.str a), some (.str b) => a == b
  | _, _ => false

/-- SameValueZero, the equality used by `new Set`: structural on
primitives (including `NaN` equal to itself); composite values compare by
reference, and distinct parsed JSON nodes are distinct references. -/
def svz : J → J → Bool
  | .null, .null => true
  | .bool a, .bool b => a == b
  | .num a, .num b => a == b
  | .str a, .str b => a == b
  | _, _ => false

/-- `Array.from(new Set(l))`: first occurrences, in insertion order. -/
def setDedupAux : List J → List J → List J
  | [], _ => []
  | x :: xs, seen =>
    if seen.any (fun y => svz y x) then setDedupAux xs seen
    else x :: setDedupAux xs (x :: seen)

def jsSetDedup (l : List J) : List J := setDedupAux l []

/-! ### String and number coercions -/

/-- The characters matched by JS `\s` on the ASCII range. -/
def isWs (c : Char) : Bool :=
  c == ' ' || c == '\t' || c == '\n' || c == '\r' || c == '\x0b' || c == '\x0c'

/-- JS `String.prototype.trim` (ASCII whitespace). -/
def jsTrim (s : String) : String :=
  String.mk (((s.toList.dropWhile isWs).reverse.dropWhile isWs).reverse)

/-- JS `String.prototype.toLowerCase` (agrees on ASCII). -/
def jsLower (s : String) : String :=
  String.mk (s.toList.map Char.toLower)

/-- Numeric value of a digit string, most significant digit first. -/
def natOfDigits (l : List Char) : Nat :=
  l.foldl (fun acc c => acc * 10 + (c.toNat - '0'.toNat)) 0

/-- JS `Number(string)` restricted to the modelled domain: optional sign
and decimal digits (after `\s` trimming); the empty string is `0`; any
other string (the "garbage" case of the claims) is `NaN`.  Fractional,
hexadecimal and exponent literals are outside the modelled domain. -/
def strToNum (s : String) : JsNum :=
  let t := (jsTrim s).toList
  match t with
  | [] => .int 0
  | '-' :: ds => if ds ≠ [] ∧ ds.all Char.isDigit then .int (-(natOfDigits ds : Int)) else .nan
  | '+' :: ds => if ds ≠ [] ∧ ds.all Char.isDigit then .int (natOfDigits ds) else .nan
  | ds => if ds.all Char.isDigit then .int (natOfDigits ds) else .nan

mutual

/-- `Array.prototype.toString` = `join(',')`: elements rendered like
`String(v)`, except `null` elements become empty strings. -/
def arrToString : List J → String
  | [] => ""
  | [x] => arrJoinElem x
  | x :: xs => arrJoinElem x ++ "," ++ arrToString xs

/-- One joined element: the scalar cases spell out `String(v)` so that
the top-level `jToString` below can stay non-recursive (and hence reduce
definitionally on scalar values). -/
def arrJoinElem : J → String
  | .null => ""
  | .bool b => cond b "true" "false"
  | .num .nan => "NaN"
  | .num (.int n) => toString n
  | .str s => s
  | .arr xs => arrToString xs
  | .obj _ => "[object Object]"

end

/-- JS `String(v)`. -/
def jToString : J → String
  | .null => "null"
  | .bool b => cond b "true" "false"
  | .num .nan => "NaN"
  | .num (.int n) => toString n
  | .str s => s
  | .arr xs => arrToString xs
  | .obj _ => "[object Object]"

/-- `join` element coercion with `null`/`undefined` rendered empty (used
by `[...].join(' ')` in the theme text). -/
def arrElemString : J → String
  | .null => ""
  | v => jToString v

/-- JS `Number(v)`. -/
def jToNumber : J → JsNum
  | .null => .int 0
  | .bool b => .int (cond b 1 0)
  | .num n => n
  | .str s => strToNum s
  | .arr xs => strToNum (arrToString xs)
  | .obj _ => .nan

/-- `Number(x)` where `x` may be `undefined` (`Number(undefined) = NaN`). -/
def jToNumberO : Option J → JsNum
  | none => .nan
  | some v => jToNumber v

/-- `Number.isFinite` on a modelled number. -/
def isFiniteNum : JsNum → Bool
  | .int _ => true
  | .nan => false

/-- `hay.includes(sub)` on strings. -/
def strIncludes (hay sub : String) : Bool :=
  (hay.toList.tails).any (fun t => sub.toList.isPrefixOf t)

/-- `hay.indexOf(needle)` on strings (index of the first occurrence). -/
def indexOfSub (hay needle : List Char) : Option Nat :=
  if needle.isPrefixOf hay then some 0
  else
    match hay with
    | [] => none
    | _ :: t => (indexOfSub t needle).map (· + 1)

/-! ### A tiny regex engine

The source uses five regular expressions over template HTML.  Each is a
plain sequence of the pieces below, so the engine implements exactly this
pattern language, with JS backtracking semantics: greedy pieces try the
longest run first, lazy pieces the shortest, and `String.prototype.match`
(without `g`) returns the match at the leftmost feasible start position.
All literals match case-insensitively (`i` flag, set on every regex used
by the source). -/

inductive Pat where
  /-- a literal, matched case-insensitively -/
  | lit (s : String)
  /-- `[^c]*`, greedy -/
  | star (c : Char)
  /-- `([^c]+)`, greedy, capturing -/
  | capPlus (c : Char)
  /-- `[\s\S]*?`, or `.*?` under the `s` flag: lazy, any character -/
  | lazyAny
  /-- `([\s\S]*?)`: lazy, any character, capturing -/
  | capLazyAny
  /-- `.*?` without the `s` flag: lazy, any character but a line terminator -/
  | lazyDot
  /-- `\b` placed after a word character: succeeds iff the next input
  character is not a word character (or the input ended) -/
  | notWordNext

def charEqCI (a b : Char) : Bool := a.toLower == b.toLower

/-- Match a literal case-insensitively, returning the rest of the input. -/
def litMatchCI : List Char → List Char → Option (List Char)
  | [], s => some s
  | _ :: _, [] => none
  | p :: ps, c :: cs => if charEqCI p c then litMatchCI ps cs else none

def isWordChar (c : Char) : Bool :=
  ('a' ≤ c && c ≤ 'z') || ('A' ≤ c && c ≤ 'Z') || ('0' ≤ c && c ≤ '9') || c == '_'

mutual

/-- Try to match the pattern sequence at the start of `s`, returning the
text of the first capturing group (if any participated) and the number of
characters consumed.

The mutual recursion is driven by a fuel parameter so that the functions
reduce definitionally.  Every recursive call strictly decreases the
lexicographic measure `(remaining pattern pieces, loop phase, loop
counter bounded by the remaining input)`, so the recursion depth is below
`(pats.length + 1) * (s.length + 2)`; `matchPatsFuel` supplies that
bound, making the fuel immaterial to the result. -/
def matchPats : Nat → List Pat → List Char → Option (Option (List Char) × Nat)
  | 0, _, _ => none
  | _ + 1, [], _ => some (none, 0)
  | fuel + 1, .lit l :: ps, s =>
    match litMatchCI l.toList s with
    | some rest =>
      match matchPats fuel ps rest with
      | some (cap, n) => some (cap, l.toList.length + n)
      | none => none
    | none => none
  | fuel + 1, .notWordNext :: ps, s =>
    match s with
    | [] => matchPats fuel ps []
    | c :: _ => if isWordChar c then none else matchPats fuel ps s
  | fuel + 1, .star c :: ps, s =>
    starTry fuel ps s ((s.takeWhile (fun x => x != c)).length)
  | fuel + 1, .capPlus c :: ps, s =>
    plusTry fuel ps s ((s.takeWhile (fun x => x != c)).length)
  | fuel + 1, .lazyAny :: ps, s => lazyTry fuel ps s
  | fuel + 1, .capLazyAny :: ps, s =>
    match capLazyTry fuel ps s with
    | some (cap, n) => some (some cap, n)
    | none => none
  | fuel + 1, .lazyDot :: ps, s => lazyDotTry fuel ps s

/-- Greedy `[^c]*`: try consuming `k` characters, backtracking downwards. -/
def starTry : Nat → List Pat → List Char → Nat → Option (Option (List Char) × Nat)
  | 0, _, _, _ => none
  | fuel + 1, ps, s, 0 =>
    match matchPats fuel ps s with
    | some (cap, n) => some (cap, n)
    | none => none
  | fuel + 1, ps, s, k + 1 =>
    match matchPats fuel ps (s.drop (k + 1)) with
    | some (cap, n) => some (cap, k + 1 + n)
    | none => starTry fuel ps s k

/-- Greedy `([^c]+)`: like `starTry` but at least one character, capturing
(and, being the pattern's first group, overriding captures from later
pieces). -/
def plusTry : Nat → List Pat → List Char → Nat → Option (Option (List Char) × Nat)
  | 0, _, _, _ => none
  | _ + 1, _, _, 0 => none
  | fuel + 1, ps, s, k + 1 =>
    match matchPats fuel ps (s.drop (k + 1)) with
    | some (_, n) => some (some (s.take (k + 1)), k + 1 + n)
    | none => plusTry fuel ps s k

/-- Lazy `[\s\S]*?`: try consuming nothing first, then one more character. -/
def lazyTry : Nat → List Pat → List Char → Option (Option (List Char) × Nat)
  | 0, _, _ => none
  | fuel + 1, ps, s =>
    match matchPats fuel ps s with
    | some r => some r
    | none =>
      match s with
      | [] => none
      | _ :: rest =>
        match lazyTry fuel ps rest with
        | some (cap, n) => some (cap, n + 1)
        | none => none

/-- Lazy capturing `([\s\S]*?)`. -/
def capLazyTry : Nat → List Pat → List Char → Option (List Char × Nat)
  | 0, _, _ => none
  | fuel + 1, ps, s =>
    match matchPats fuel ps s with
    | some (_, n) => some ([], n)
    | none =>
      match s with
      | [] => none
      | c :: rest =>
        match capLazyTry fuel ps rest with
        | some (cap, n) => some (c :: cap, n + 1)
        | none => none

/-- Lazy `.*?` without the `s` flag: cannot consume a line terminator. -/
def lazyDotTry : Nat → List Pat → List Char → Option (Option (List Char) × Nat)
  | 0, _, _ => none
  | fuel + 1, ps, s =>
    match matchPats fuel ps s with
    | some r => some r
    | none =>
      match s with
      | [] => none
      | c :: rest =>
        if c == '\n' || c == '\r' then none
        else
          match lazyDotTry fuel ps rest with
          | some (cap, n) => some (cap, n + 1)
          | none => none

end

/-- A fuel amount exceeding every possible recursion depth (see
`matchPats`). -/
def matchPatsFuel (pats : List Pat) (s : List Char) : Nat :=
  (pats.length + 1) * (s.length + 2)

/-- Leftmost search of a pattern sequence: `(start, length, capture)`. -/
def regexSearch (pats : List Pat) : List Char → Option (Nat × Nat × Option (List Char))
  | [] =>
    match matchPats (matchPatsFuel pats []) pats [] with
    | some (cap, n) => some (0, n, cap)
    | none => none
  | c :: rest =>
    match matchPats (matchPatsFuel pats (c :: rest)) pats (c :: rest) with
    | some (cap, n) => some (0, n, cap)
    | none => (regexSearch pats rest).map (fun r => (r.1 + 1, r.2.1, r.2.2))

/-- `s.match(re)` without the `g` flag: `(m[0], m[1])`, the capture being
`""` when the group did not participate (both are falsy in the source's
`ctaMatch && ctaMatch[1]` style tests, so the distinction is immaterial). -/
def regexMatch (pats : List Pat) (s : String) : Option (String × String) :=
  match regexSearch pats s.toList with
  | some (i, n, cap) =>
    some (String.mk ((s.toList.drop i).take n), String.mk (cap.getD []))
  | none => none

/-- `s.replace(re, ' ')` with the `g` flag.  The fuel starts at
`length + 1` and every iteration consumes at least one character (every
replaced pattern starts with a non-empty literal), so it never runs out. -/
def replaceAllAux (pats : List Pat) : Nat → List Char → List Char
  | 0, s => s
  | fuel + 1, s =>
    match regexSearch pats s with
    | none => s
    | some (i, n, _) =>
      if n = 0 then s
      else (s.take i) ++ ' ' :: replaceAllAux pats fuel (s.drop (i + n))

def replaceAllPats (pats : List Pat) (s : String) : String :=
  String.mk (replaceAllAux pats (s.length + 1) s.toList)

/-! ### HTML helpers: `stripHtml`, `cleanBodyForAnalysis`, CTA extraction -/

/-- One global pass of `replace(/<[^>]*>?/gm, ' ')`: at a `<`, the match
consumes the maximal run of non-`>` characters and one `>` if present, and
is replaced by a single space.  The flag says whether the scanner is
inside such a match. -/
def stripTagsGo : Bool → List Char → List Char
  | _, [] => []
  | true, c :: cs => if c == '>' then stripTagsGo false cs else stripTagsGo true cs
  | false, c :: cs =>
    if c == '<' then ' ' :: stripTagsGo true cs else c :: stripTagsGo false cs

def stripTags (l : List Char) : List Char := stripTagsGo false l

/-- `replace(/\s\s+/g, ' ')`: a run of two or more whitespace characters
becomes one space; a single whitespace character is kept verbatim.  The
flag says whether the scanner is inside a run already replaced by `' '`. -/
def collapseWsGo : Bool → List Char → List Char
  | _, [] => []
  | true, c :: cs =>
    if isWs c then collapseWsGo true cs else c :: collapseWsGo false cs
  | false, c :: cs =>
    if isWs c then
      if (cs.head?.map isWs).getD false then ' ' :: collapseWsGo true cs
      else c :: collapseWsGo false cs
    else c :: collapseWsGo false cs

def collapseWs (l : List Char) : List Char := collapseWsGo false l

/-- `stripHtml` from the source: tags to spaces, whitespace runs
collapsed, then trimmed; falsy input gives `''`. -/
def stripHtml (html : String) : String :=
  if html = "" then ""
  else jsTrim (String.mk (collapseWs (stripTags html.toList)))

def styleBlockPats : List Pat :=
  [.lit "<style", .notWordNext, .star '>', .lit ">", .lazyAny, .lit "</style>"]

def scriptBlockPats : List Pat :=
  [.lit "<script", .notWordNext, .star '>', .lit ">", .lazyAny, .lit "</script>"]

def htmlCommentPats : List Pat := [.lit "<!--", .lazyAny, .lit "-->"]

/-- `cleanBodyForAnalysis` from the source: strip `<style>`/`<script>`
blocks, strip HTML comments, then `stripHtml`.

Modelled from the spec for the comment step only: the distributed source
line `cleaned.replace(//g, ' ')` lost its regex literal (an HTML comment
pattern does not survive embedding); the function's own comment and the
spec both state "remove all HTML comments", modelled here as the standard
`<!--[\s\S]*?-->` global replacement. -/
def cleanBodyForAnalysis (html : String) : String :=
  if html = "" then ""
  else
    let c1 := replaceAllPats styleBlockPats html
    let c2 := replaceAllPats scriptBlockPats c1
    let c3 := replaceAllPats htmlCommentPats c2
    stripHtml c3

/-- `/<td[^>]*class=\"kl-button\"[^>]*>.*?<p[^>]*>([^<]+)<\/p>/is` -/
def klButtonPats : List Pat :=
  [.lit "<td", .star '>', .lit "class=\"kl-button\"", .star '>', .lit ">",
   .lazyAny, .lit "<p", .star '>', .lit ">", .capPlus '<', .lit "</p>"]

/-- `/<a[^>]*href=\"([^\"]+)\"[^>]*>/is` (also used, with only the `i`
flag, for the broader content-area search; the pattern contains no `.`,
so the flags coincide). -/
def anchorHrefPats : List Pat :=
  [.lit "<a", .star '>', .lit "href=\"", .capPlus '"', .lit "\"", .star '>', .lit ">"]

/-- `/<div class=\"content-padding.*?>([\s\S]*?)<\/div>/i` -/
def contentPaddingPats : List Pat :=
  [.lit "<div class=\"content-padding", .lazyDot, .lit ">", .capLazyAny, .lit "</div>"]

/-- The content-area fallback for the CTA link: the first anchor `href`
inside the first `content-padding` div, or null. -/
def ctaContentAreaLink (body_html : String) : Option String :=
  match regexMatch contentPaddingPats body_html with
  | some (_, inner) =>
    if inner != "" then
      match regexMatch anchorHrefPats inner with
      | some (_, l) => if l != "" then some (jsTrim l) else none
      | none => none
    else none
  | none => none

/-- The CTA-extraction step of the per-match loop (step B of the source):
`(cta_text, cta_link)`.  `none` models the JS `null` the two variables
are initialised with. -/
def extractCta (body_html : String) : Option String × Option String :=
  match regexMatch klButtonPats body_html with
  | none => (none, none)
  | some (m0, m1) =>
    if m1 != "" then
      let cta_text := jsTrim (stripHtml m1)
      let idx := (indexOfSub body_html.toList m0.toList).getD 0
      let ctaButtonHtml := String.mk (body_html.toList.drop idx)
      let cta_link :=
        match regexMatch anchorHrefPats ctaButtonHtml with
        | some (_, l) => if l != "" then some (jsTrim l) else ctaContentAreaLink body_html
        | none => ctaContentAreaLink body_html
      (some cta_text, cta_link)
    else (none, none)

/-! ### Theme extraction (step D of the per-match loop) -/

/-- A character kept by `split(/[^a-z0-9]+/)` after `toLowerCase`. -/
def isTokenChar (c : Char) : Bool :=
  ('a' ≤ c && c ≤ 'z') || ('0' ≤ c && c ≤ '9')

/-- `text.toLowerCase().split(/[^a-z0-9]+/).filter(Boolean)`: the maximal
non-empty runs of token characters (splitting on separators and dropping
the empty fragments produced at the boundaries is exactly taking the
maximal runs). -/
def tokenRunsAcc : List Char → List Char → List String
  | acc, [] => if acc = [] then [] else [String.mk acc.reverse]
  | acc, c :: cs =>
    if isTokenChar c then tokenRunsAcc (c :: acc) cs
    else if acc = [] then tokenRunsAcc [] cs
    else String.mk acc.reverse :: tokenRunsAcc [] cs

def tokenRuns (l : List Char) : List String := tokenRunsAcc [] l

def jsTokens (text : String) : List String :=
  tokenRuns (jsLower text).toList

/-- The stop-word set of the source. -/
def stopWords : List String :=
  ["the", "and", "for", "you", "with", "to", "of", "in", "on", "at", "is",
   "it", "from", "by", "as", "we", "i", "a", "an", "only", "out", "up",
   "down", "here", "now", "or", "your", "us", "our", "what", "day"]

/-- The per-token test inside the `forEach`: length above 2, not a stop
word, not containing `klaviyo` or `unsubscribe`. -/
def keepToken (t : String) : Bool :=
  decide (2 < t.length) && !(stopWords.contains t) &&
    !(strIncludes t "klaviyo") && !(strIncludes t "unsubscribe")

/-- `freq[t] = (freq[t] || 0) + 1` over the kept tokens: an association
list in key-insertion order. -/
def bumpFreq (m : List (String × Nat)) (t : String) : List (String × Nat) :=
  match m with
  | [] => [(t, 1)]
  | (k, n) :: rest => if k = t then (k, n + 1) :: rest else (k, n) :: bumpFreq rest t

def buildFreq (tokens : List String) : List (String × Nat) :=
  (tokens.filter keepToken).foldl bumpFreq []

def freqOf (m : List (String × Nat)) (t : String) : Nat :=
  ((m.lookup t).getD 0)

/-- A canonical array-index string: what `Object.keys` orders first,
numerically ascending.  `ToString(ToUint32(s)) = s` and the value is below
`2^32 - 1`: decimal digits, no leading zero (except `"0"` itself). -/
def isArrayIndexKey (s : String) : Bool :=
  let l := s.toList
  l ≠ [] && l.all Char.isDigit && (s = "0" || l.head? ≠ some '0') &&
    decide (natOfDigits l < 4294967295)

/-- Insert keeping the existing order among elements `y` with `le y x`
(the stable insertion step). -/
def insertLe (le : α → α → Bool) (x : α) : List α → List α
  | [] => [x]
  | y :: ys => if le y x then y :: insertLe le x ys else x :: y :: ys

/-- A stable sort: the unique output of any stable sorting algorithm (in
particular the required-stable `Array.prototype.sort`) under a consistent
comparator. -/
def stableSort (le : α → α → Bool) (l : List α) : List α :=
  l.foldl (fun acc x => insertLe le x acc) []

/-- `Object.keys` enumeration order for a string-keyed object built by
insertion: array-index-like keys first, ascending numerically, then the
remaining keys in insertion order. -/
def objectKeysOrder (m : List (String × Nat)) : List String :=
  let ks := m.map Prod.fst
  stableSort (fun a b => decide (natOfDigits a.toList ≤ natOfDigits b.toList))
      (ks.filter isArrayIndexKey)
    ++ ks.filter (fun k => !isArrayIndexKey k)

/-- `le` for `sort((a,b) => freq[b] - freq[a])`: descending frequency. -/
def freqDescLe (m : List (String × Nat)) (a b : String) : Bool :=
  decide (freqOf m b ≤ freqOf m a)

/-- `Object.keys(freq).sort((a,b) => freq[b] - freq[a])` for the token
frequency map of `text`. -/
def rankedThemes (text : String) : List String :=
  let m := buildFreq (jsTokens text)
  stableSort (freqDescLe m) (objectKeysOrder m)

/-- The theme list of the source: the ranking truncated by `.slice(0, 5)`. -/
def extractThemes (text : String) : List String :=
  (rankedThemes text).take 5

/-- The theme ranking in the spec's words (for comparison with
`extractThemes`): "return the top 5 by descending count, ties broken by
first-seen order in the token stream" — i.e. the same stable sort applied
to the keys in first-seen (insertion) order, without the
array-index-keys-first enumeration quirk of `Object.keys`. -/
def specFirstSeenThemes (text : String) : List String :=
  let m := buildFreq (jsTokens text)
  (stableSort (freqDescLe m) (m.map Prod.fst)).take 5

/-! ### Metrics mapping (step C of the per-match loop) -/

/-- The mapped metric record (the `raw` field is carried separately by
the caller). -/
structure MetricRecord where
  open_rate : Option JsNum
  click_rate : Option JsNum
  conversion_rate : Option JsNum
  sent : Option JsNum
  revenue : Option JsNum
deriving DecidableEq, Repr

/-- `x || y || null` followed by
`v !== undefined && v !== null ? Number(v) : null` — the rate fields,
which get no finiteness guard in the source. -/
def mapRateField (aliases : List (Option J)) : Option JsNum :=
  match firstTruthy aliases with
  | some v => some (jToNumber v)
  | none => none

/-- The same chain but with the `Number.isFinite` guard the source
applies to `sent` and `revenue` only. -/
def mapGuardedField (aliases : List (Option J)) : Option JsNum :=
  match firstTruthy aliases with
  | some v => if isFiniteNum (jToNumber v) then some (jToNumber v) else none
  | none => none

/-- The field-aliasing block of the source (`||`-based fallback):

    const open_val = mJson.open_rate || mJson.open_rate_pct || null;
    ...
    open_rate: open_val !== undefined && open_val !== null ? Number(open_val) : null,
    ...
    sent: sent_val !== ... ? (Number.isFinite(Number(sent_val)) ? Number(sent_val) : null) : null,
-/
def mapMetrics (mJson : J) : MetricRecord where
  open_rate := mapRateField [jget mJson "open_rate", jget mJson "open_rate_pct"]
  click_rate := mapRateField [jget mJson "click_rate", jget mJson "click_rate_pct"]
  conversion_rate :=
    mapRateField [jget mJson "conversion_rate", jget mJson "conversion_rate_pct"]
  sent :=
    mapGuardedField [jget mJson "recipients", jget mJson "number_sent", jget mJson "sent"]
  revenue := mapGuardedField [jget mJson "revenue", jget mJson "total_revenue"]

/-- The all-null record `metrics` is initialised with. -/
def defaultMetrics : MetricRecord :=
  { open_rate := none, click_rate := none, conversion_rate := none,
    sent := none, revenue := none }

/-! ### Normalization (step 2 of `runSearchCampaigns`) -/

/-- The canonical campaign produced by the extraction `map`.  The `raw`
field of the source (the original item, unused downstream) is dropped. -/
structure NormCampaign where
  id : Option String
  name : J
  subject_lines : List J
  created_at : Option J
  preview_text : J
  template_id : Option J

/-- `item.attributes || item || {}`. -/
def attrsOf (item : J) : J :=
  jValOr (jget item "attributes") (jValOr (some item) (.obj []))

/-- `item.id || item?.campaign_id || item?.uid ||
(item?.attributes && item.attributes.id) || null`. -/
def rawIdOf (item : J) : Option J :=
  firstTruthy [jget item "id", jget item "campaign_id", jget item "uid",
    jAnd (jget item "attributes") (jgetO (jget item "attributes") "id")]

/-- `item?.relationships?.['campaign-messages']?.data?.[0]`. -/
def messageRelOf (item : J) : Option J :=
  jIndexO (jgetO (jgetO (jget item "relationships") "campaign-messages") "data") 0

/-- The `included` resource found for the campaign's message relationship
(`includedMessages.find(i => i.id === messageRelationship.id)`), provided
the relationship pointer is truthy. -/
def resolvedMessage (includedMessages : List J) (item : J) : Option J :=
  let rel := messageRelOf item
  if jTruthy rel then
    includedMessages.find? (fun i => jStrictEqO (jget i "id") (jgetO rel "id"))
  else none

/-- `message?.attributes?.content?.subject ||
message?.attributes?.definition?.content?.subject`, pushed when truthy. -/
def messageSubject (message : Option J) : Option J :=
  firstTruthy
    [jgetO (jgetO (jgetO message "attributes") "content") "subject",
     jgetO (jgetO (jgetO (jgetO message "attributes") "definition") "content") "subject"]

/-- The exact sequence of values pushed onto `subject_lines`: the resolved
message subject (when truthy), the truthy elements of
`attrs.subject_lines` (when it is an array), then truthy `attrs.subject`
and `item.subject`. -/
def subjectCandidates (includedMessages : List J) (item : J) : List J :=
  let attrs := attrsOf item
  let fromMessage :=
    match messageSubject (resolvedMessage includedMessages item) with
    | some v => [v]
    | none => []
  let fromArray :=
    match jget attrs "subject_lines" with
    | some (.arr xs) => xs.filter (fun v => jTruthy (some v))
    | _ => []
  let fromAttrs :=
    match jget attrs "subject" with
    | some v => if jTruthy (some v) then [v] else []
    | none => []
  let fromItem :=
    match jget item "subject" with
    | some v => if jTruthy (some v) then [v] else []
    | none => []
  fromMessage ++ fromArray ++ fromAttrs ++ fromItem

/-- The extraction `map` of step 2 of the source. -/
def normalizeItem (includedMessages : List J) (item : J) : NormCampaign :=
  let attrs := attrsOf item
  let message := resolvedMessage includedMessages item
  { id :=
      match rawIdOf item with
      | some v => some (jToString v)
      | none => none
    name :=
      jValOr (firstTruthy [jget attrs "name", jget attrs "title",
        jget item "name", jget item "title"]) (.str "")
    subject_lines :=
      (jsSetDedup (subjectCandidates includedMessages item)).filter
        (fun v => jTruthy (some v))
    created_at :=
      firstTruthy [jget attrs "created_at", jget attrs "created",
        jget attrs "sent_at", jget attrs "scheduled",
        jget item "created_at", jget item "sent_at"]
    preview_text :=
      jValOr (jgetO (jgetO (jgetO message "attributes") "content") "preview_text")
        (.str "")
    template_id :=
      if jTruthy (messageRelOf item) then
        firstTruthy
          [jgetO (jgetO (jgetO (jgetO message "relationships") "template") "data") "id"]
      else none }

/-! ### Keyword matching (step 3) -/

/-- `(v || '').toLowerCase()`.  Domain note: in the source a truthy
non-string value here would raise a `TypeError` (primitives other than
strings have no `toLowerCase`); the model coerces with `String(v)`
instead.  The campaign text fields are strings in every schema the
normalizer handles, and every claim is settled on string-valued fields. -/
def jLowerText (v : J) : String :=
  if jTruthy (some v) then jsLower (jToString v) else ""

/-- The filter predicate of step 3: case-insensitive substring match on
name, any subject line, then preview text. -/
def matchesKeyword (keywordLower : String) (c : NormCampaign) : Bool :=
  strIncludes (jLowerText c.name) keywordLower ||
    c.subject_lines.any (fun s => strIncludes (jLowerText s) keywordLower) ||
    strIncludes (jLowerText c.preview_text) keywordLower

/-- `.slice(0, e)` with a possibly negative or over-long end index. -/
def jsSliceTo (l : List α) (e : Int) : List α :=
  if e < 0 then l.take (l.length + e).toNat
  else l.take (min e.toNat l.length)

/-! ### The pipeline (`runSearchCampaigns`)

Network effects are modelled as oracles: the listing response is a
parameter, the template fetch is a function from template id to the HTML
it yields (`""` covering every failure path of `getTemplateHtml`), and
the metrics fetch is a function from `(campaign_id, since_days)` to
`none` (non-2xx or network failure) or `some parsed` (a 2xx body and its
JSON parse result, `none` inside meaning invalid JSON). -/

/-- Server configuration (environment variables and the fetch shim). -/
structure Env where
  newKey : Option String
  oldKey : Option String
  /-- the value of `Number(process.env.DEFAULT_DAYS || 90)` -/
  defaultDays : JsNum
  fetchAvailable : Bool

/-- The decoded request input (each field absent or a JSON value). -/
structure Input where
  keyword : Option J
  days : Option J
  limit : Option J

/-- The listing fetch outcome: HTTP ok flag and the parse result of the
response text (`none` = not valid JSON). -/
structure ListingResult where
  ok : Bool
  body : Option J

/-- `process.env.KLAVIYO_NEW_API_KEY || process.env.KLAVIYO_API_KEY`. -/
def envApiKey (e : Env) : Option String :=
  match e.newKey with
  | some s => if s ≠ "" then some s else e.oldKey
  | none => e.oldKey

/-- Truthiness of the resolved API key (`if (!apiKey)`). -/
def apiKeyOk (e : Env) : Bool :=
  match envApiKey e with
  | some s => s ≠ ""
  | none => false

/-- `String(input.keyword || '').trim()`. -/
def keywordOf (input : Input) : String :=
  jsTrim (jToString (jValOr input.keyword (.str "")))

/-- `Number.isFinite(Number(input.days)) ? Number(input.days)
: Number(process.env.DEFAULT_DAYS || 90)`. -/
def daysOf (input : Input) (e : Env) : JsNum :=
  match jToNumberO input.days with
  | .int n => .int n
  | .nan => e.defaultDays

/-- `Math.min(Number.isFinite(Number(input.limit)) ? Number(input.limit)
: 25, 200)`. -/
def clampLimit (limitRaw : Option J) : Int :=
  match jToNumberO limitRaw with
  | .int n => min n 200
  | .nan => 25

/-- `safeJsonParse(text) || {}`. -/
def jsonOrEmpty (parsed : Option J) : J :=
  match parsed with
  | some j => if jTruthy (some j) then j else .obj []
  | none => .obj []

/-- The `rawItems` dispatch:

    Array.isArray(campaignsJson?.data) ? campaignsJson.data
      : (Array.isArray(campaignsJson) ? campaignsJson
        : (campaignsJson?.campaigns || campaignsJson?.results || []));

followed by `(rawItems || []).map(...)`.  When the `campaigns`/`results`
branch produces a truthy non-array, `.map` is not a function and the
thrown `TypeError` reaches the surrounding catch (`.error ()` here). -/
def rawItemsDispatch (cj : J) : Except Unit (List J) :=
  match jget cj "data" with
  | some (.arr xs) => .ok xs
  | _ =>
    match cj with
    | .arr xs => .ok xs
    | _ =>
      match jValOr (jOr (jget cj "campaigns") (jget cj "results")) (.arr []) with
      | .arr xs => .ok xs
      | _ => .error ()

def rawItemsOf (body : Option J) : Except Unit (List J) :=
  rawItemsDispatch (jsonOrEmpty body)

/-- `Array.isArray(campaignsJson?.included)
? campaignsJson.included.filter(i => i.type === 'campaign-message') : []`. -/
def includedOf (body : Option J) : List J :=
  match jget (jsonOrEmpty body) "included" with
  | some (.arr xs) =>
    xs.filter (fun i => jStrictEqO (jget i "type") (some (.str "campaign-message")))
  | _ => []

/-- Steps 1b–2: raw items mapped through the extraction `map`. -/
def allCampaignsOf (body : Option J) : Except Unit (List NormCampaign) :=
  (rawItemsOf body).map (fun items => items.map (normalizeItem (includedOf body)))

/-- Step 3 before truncation: the keyword filter applied to the
normalized campaigns (`matched` before `.slice(0, limit)`). -/
def matchedAllOf (keyword : String) (body : Option J) :
    Except Unit (List NormCampaign) :=
  (allCampaignsOf body).map (fun l => l.filter (matchesKeyword (jsLower keyword)))

/-- The template-fetch oracle: the `body_html` that `getTemplateHtml`
yields for a truthy template id (`""` covers absence and all failures). -/
def TemplateOracle := J → String

/-- The metrics-fetch oracle, keyed by campaign id and `since_days`. -/
def MetricsOracle := Option String → JsNum → Option (Option J)

/-- Step A: `getTemplateHtml(c.template_id, apiKey)` — `''` without a
call when the template id is falsy (`template_id` is `none` exactly when
the chain produced no truthy id; the API key is truthy at this point). -/
def bodyHtmlOf (tO : TemplateOracle) (c : NormCampaign) : String :=
  match c.template_id with
  | some tid => tO tid
  | none => ""

/-- Step C: the mapped metric record (default on a failed fetch). -/
def metricRecordOf (mO : MetricsOracle) (days : JsNum) (c : NormCampaign) :
    MetricRecord :=
  match mO c.id days with
  | some parsed => mapMetrics (jsonOrEmpty parsed)
  | none => defaultMetrics

/-- `metrics.raw || null` for the output record. -/
def metricsRawField (mO : MetricsOracle) (days : JsNum) (c : NormCampaign) :
    Option J :=
  match mO c.id days with
  | some parsed =>
    let m := jsonOrEmpty parsed
    if jTruthy (some m) then some m else none
  | none => none

/-- Step D's combined text:
`[c.name, c.preview_text].concat(c.subject_lines || []).join(' ') + ' ' + body_text`
(`join` coerces elements like `Array.prototype.toString` does). -/
def themeTextOf (tO : TemplateOracle) (c : NormCampaign) : String :=
  let body_text := cleanBodyForAnalysis (bodyHtmlOf tO c)
  String.intercalate " " ((c.name :: c.preview_text :: c.subject_lines).map arrElemString)
    ++ " " ++ body_text

def themesOfC (tO : TemplateOracle) (c : NormCampaign) : List String :=
  extractThemes (themeTextOf tO c)

/-- One flattened `subject_lines` entry. -/
structure SubjectEntry where
  campaign_id : Option String
  subject : J

/-- One flattened `performance_metrics` entry. -/
structure PerfEntry where
  campaign_id : Option String
  open_rate : Option JsNum
  click_rate : Option JsNum
  conversion_rate : Option JsNum
  sent : Option JsNum
  revenue : Option JsNum

/-- One flattened `themes` entry. -/
structure ThemeEntry where
  campaign_id : Option String
  themes : List String

/-- One element of the output `campaigns` array. -/
structure CampaignRecord where
  id : Option String
  name : J
  subject_lines : List J
  sent_at : Option J
  preview_text : J
  body_html : String
  body_text : String
  cta_text : Option String
  cta_link : Option String
  metrics : Option J
  themes : List String

/-- The success payload. -/
structure Output where
  keyword : String
  campaign_count : Nat
  subject_lines : List SubjectEntry
  performance_metrics : List PerfEntry
  themes : List ThemeEntry
  campaigns : List CampaignRecord
  days_used : JsNum
  requested_limit : Int

/-- An HTTP response of the handler: a 200 success payload or an error
status with its `error` code string. -/
inductive Response where
  | success (o : Output)
  | error (status : Nat) (code : String)

def perfEntryOf (mO : MetricsOracle) (days : JsNum) (c : NormCampaign) : PerfEntry :=
  let m := metricRecordOf mO days c
  { campaign_id := c.id, open_rate := m.open_rate, click_rate := m.click_rate,
    conversion_rate := m.conversion_rate, sent := m.sent, revenue := m.revenue }

def campaignRecordOf (tO : TemplateOracle) (mO : MetricsOracle) (days : JsNum)
    (c : NormCampaign) : CampaignRecord :=
  let body_html := bodyHtmlOf tO c
  let cta := extractCta body_html
  { id := c.id, name := c.name, subject_lines := c.subject_lines,
    sent_at := c.created_at, preview_text := c.preview_text,
    body_html := body_html, body_text := cleanBodyForAnalysis body_html,
    cta_text := cta.1, cta_link := cta.2,
    metrics := metricsRawField mO days c, themes := themesOfC tO c }

/-- Steps 4–5: the per-match loop appends one entry per campaign to each
of the four arrays (and one `{campaign_id, subject}` pair per subject),
in iteration order — rendered here as maps over the truncated `matched`
list, which is exactly the loop's result. -/
def assembleOutput (keyword : String) (days : JsNum) (limit : Int)
    (matched : List NormCampaign) (tO : TemplateOracle) (mO : MetricsOracle) :
    Output :=
  { keyword := keyword
    campaign_count := matched.length
    subject_lines :=
      matched.flatMap (fun c => c.subject_lines.map
        (fun subj => { campaign_id := c.id, subject := subj }))
    performance_metrics := matched.map (perfEntryOf mO days)
    themes := matched.map (fun c => { campaign_id := c.id, themes := themesOfC tO c })
    campaigns := matched.map (campaignRecordOf tO mO days)
    days_used := days
    requested_limit := limit }

/-- The whole of `runSearchCampaigns`, with the guard chain in source
order: missing API key, empty keyword, missing fetch, failed listing,
then the pipeline. -/
def runSearchCampaigns (env : Env) (input : Input) (listing : ListingResult)
    (tO : TemplateOracle) (mO : MetricsOracle) : Response :=
  let keyword := keywordOf input
  let days := daysOf input env
  let limit := clampLimit input.limit
  if apiKeyOk env = false then .error 500 "server_misconfigured"
  else if keyword = "" then .error 400 "missing_parameter"
  else if env.fetchAvailable = false then .error 500 "server_misconfigured"
  else if listing.ok = false then .error 502 "Failed to fetch campaigns"
  else
    match matchedAllOf keyword listing.body with
    | .error _ => .error 500 "Unexpected server error"
    | .ok matchedAll =>
      .success (assembleOutput keyword days limit (jsSliceTo matchedAll limit) tO mO)

/-! ## Claims -/

/-! ### C1 — limit clamping -/

/-- **C1, counterexample.**  The claim says the effective limit always
lies in `[1, 200]`, a value below 1 being clamped up to 1.  The source
computes `Math.min(limit, 25-default, 200)` with no lower clamp: a
requested `limit = 0` gives effective limit `0` (below 1), and the slice
then returns no campaigns at all even when one matches. -/
theorem c1_counterexample :
    clampLimit (some (J.num (JsNum.int 0))) < 1 ∧
      jsSliceTo [()] (clampLimit (some (J.num (JsNum.int 0)))) = [] := by
  exact ⟨by decide, rfl⟩

/-- **C1, amended.**  The effective limit is `min(limit, 200)` for a
finite requested limit and 25 when the limit is absent or non-finite;
there is no lower clamp.  For a non-negative effective limit at most 200
records survive the truncation; a negative requested limit instead drops
`|limit|` records from the end of the matched list (JS `slice` semantics),
so it can even keep more than 200. -/
theorem c1_amended :
    (clampLimit none = 25) ∧
    (∀ g : J, jToNumberO (some g) = JsNum.nan → clampLimit (some g) = 25) ∧
    (∀ n : Int, clampLimit (some (J.num (JsNum.int n))) = min n 200) ∧
    (∀ lim : Option J, clampLimit lim ≤ 200) ∧
    (∀ (l : List NormCampaign) (lim : Option J), 0 ≤ clampLimit lim →
      ((jsSliceTo l (clampLimit lim)).length : Int) ≤ 200) ∧
    (∀ (l : List NormCampaign) (n : Int), n < 0 →
      jsSliceTo l n = l.take (l.length + n).toNat) := by
  refine ⟨rfl, ?_, ?_, ?_, ?_, ?_⟩
  · intro g h
    simp only [clampLimit, h]
  · intro n
    rfl
  · intro lim
    unfold clampLimit
    cases jToNumberO lim with
    | nan => decide
    | int n => simp only [min_le_iff]; right; rfl
  · intro l lim h
    unfold jsSliceTo
    have h200 : clampLimit lim ≤ 200 := by
      unfold clampLimit
      cases jToNumberO lim with
      | nan => decide
      | int n => simp only [min_le_iff]; right; rfl
    rw [if_neg (by omega)]
    simp only [List.length_take]
    omega
  · intro l n h
    unfold jsSliceTo
    rw [if_pos h]

/-- **C1, witness** for the amended theorem's hypotheses at concrete
inputs. -/
theorem c1_amended_witness :
    clampLimit (some (J.str "oops")) = 25 ∧
      ((jsSliceTo ([] : List NormCampaign)
        (clampLimit (some (J.num (JsNum.int 7))))).length : Int) ≤ 200 ∧
      jsSliceTo ([] : List NormCampaign) (-2) =
        ([] : List NormCampaign).take ((0 : Int) + (-2)).toNat :=
  ⟨c1_amended.2.1 (J.str "oops") rfl,
   c1_amended.2.2.2.2.1 [] (some (J.num (JsNum.int 7))) (by decide),
   c1_amended.2.2.2.2.2 [] (-2) (by decide)⟩

/-! ### C3 — metric fields finite-or-null -/

/-- **C3, counterexample.**  A truthy non-numeric `open_rate` (the
"garbage" case) is coerced with `Number(...)` and emitted as `NaN`: the
source guards only `sent` and `revenue` with `Number.isFinite`, not the
three rate fields, so the claim's "every numeric field ... is either a
finite number or null ... never emitted as NaN" fails. -/
theorem c3_counterexample :
    (mapMetrics (J.obj [("open_rate", J.str "not-a-number")])).open_rate
        = some JsNum.nan ∧
      (mapMetrics (J.obj [("open_rate", J.str "not-a-number")])).open_rate ≠ none := by
  exact ⟨rfl, by decide⟩

/-- The guarded alias chain (`sent`/`revenue`) always yields a finite
number or null. -/
theorem mapGuardedField_finiteOrNull (aliases : List (Option J)) :
    mapGuardedField aliases = none ∨
      ∃ n : Int, mapGuardedField aliases = some (JsNum.int n) := by
  unfold mapGuardedField
  cases firstTruthy aliases with
  | none => exact Or.inl rfl
  | some v =>
    cases h : jToNumber v with
    | nan => simp [isFiniteNum, h]
    | int n =>
      refine Or.inr ⟨n, ?_⟩
      simp [isFiniteNum, h]

/-- **C3, amended.**  Only `sent` and `revenue` are guaranteed finite or
null for every upstream report body; `open_rate`, `click_rate` and
`conversion_rate` are `Number(first truthy alias)` unguarded, which is
`NaN` whenever that alias holds a truthy non-numeric value (see the
counterexample), and null only when no alias is truthy. -/
theorem c3_amended (mJson : J) :
    ((mapMetrics mJson).sent = none ∨
      ∃ n : Int, (mapMetrics mJson).sent = some (JsNum.int n)) ∧
    ((mapMetrics mJson).revenue = none ∨
      ∃ n : Int, (mapMetrics mJson).revenue = some (JsNum.int n)) :=
  ⟨mapGuardedField_finiteOrNull _, mapGuardedField_finiteOrNull _⟩

/-! ### C4 — zero is lost by the `||` alias fallback -/

/-- **C4, counterexample.**  An upstream report with `open_rate = 0` (a
legitimate 0% open rate) maps to `null`, not `0`: the `||`-based fallback
skips every falsy value, contradicting the claimed null/undefined-only
fallback. -/
theorem c4_counterexample :
    (mapMetrics (J.obj [("open_rate", J.num (JsNum.int 0))])).open_rate = none ∧
      (mapMetrics (J.obj [("open_rate", J.num (JsNum.int 0))])).open_rate
        ≠ some (JsNum.int 0) := by
  exact ⟨rfl, by decide⟩

/-- **C4, amended.**  The alias fallback is truthiness-based (`||`): an
upstream `open_rate` of `0` is treated exactly like a missing one, so
whenever no other alias is truthy the mapped `open_rate` is null rather
than `0`. -/
theorem c4_amended (mJson : J)
    (h0 : jget mJson "open_rate" = some (J.num (JsNum.int 0)))
    (h1 : jTruthy (jget mJson "open_rate_pct") = false) :
    (mapMetrics mJson).open_rate = none := by
  simp only [mapMetrics, mapRateField, firstTruthy, h0, h1]
  simp [jTruthy]

/-- **C4, witness** for the amended theorem at a concrete report. -/
theorem c4_amended_witness :
    jget (J.obj [("open_rate", J.num (JsNum.int 0))]) "open_rate"
        = some (J.num (JsNum.int 0)) ∧
      jTruthy (jget (J.obj [("open_rate", J.num (JsNum.int 0))]) "open_rate_pct")
        = false ∧
      (mapMetrics (J.obj [("open_rate", J.num (JsNum.int 0))])).open_rate = none :=
  ⟨rfl, rfl, c4_amended (J.obj [("open_rate", J.num (JsNum.int 0))]) rfl rfl⟩

/-! ### C5 — no document-wide anchor fallback for the CTA link -/

def htmlNoCta : String := "<div><a href=\"https://example.com/shop\">Shop</a></div>"

/-- **C5, counterexample.**  A document with an anchor but no CTA-button
match: the claim says `cta_link` falls back to the first anchor `href`
anywhere in the document, but the source leaves both `cta_text` and
`cta_link` null — the anchor/content-area fallbacks live inside the
branch taken only when the button regex matched. -/
theorem c5_counterexample :
    extractCta htmlNoCta = (none, none) ∧
      regexMatch anchorHrefPats htmlNoCta =
        some ("<a href=\"https://example.com/shop\">", "https://example.com/shop") := by
  exact ⟨rfl, rfl⟩

/-- **C5, amended.**  When the CTA button heuristic finds no match, both
`cta_text` and `cta_link` are null, regardless of any anchors present in
the document (the first-anchor fallback searches only inside the first
`content-padding` div and only runs when CTA text was found but no anchor
followed it). -/
theorem c5_amended (body_html : String)
    (h : regexMatch klButtonPats body_html = none) :
    extractCta body_html = (none, none) := by
  simp only [extractCta, h]

/-- **C5, witness** for the amended theorem at a concrete document. -/
theorem c5_amended_witness :
    regexMatch klButtonPats "<span>x</span>" = none ∧
      extractCta "<span>x</span>" = (none, none) :=
  ⟨rfl, c5_amended "<span>x</span>" rfl⟩

/-! ### C6 — theme ordering -/

/-- **C6, counterexample.**  On the text `"abc 100"` the token stream is
`["abc", "100"]`, both tokens have frequency 1, so the claimed
first-encountered tie-break would return `["abc", "100"]`
(`specFirstSeenThemes`, the spec's wording).  The source enumerates the
frequency object with `Object.keys`, which lists array-index-like keys
such as `"100"` first, so it returns `["100", "abc"]`. -/
theorem c6_counterexample :
    extractThemes "abc 100" = ["100", "abc"] ∧
      specFirstSeenThemes "abc 100" = ["abc", "100"] ∧
      jsTokens "abc 100" = ["abc", "100"] ∧
      freqOf (buildFreq (jsTokens "abc 100")) "abc" = 1 ∧
      freqOf (buildFreq (jsTokens "abc 100")) "100" = 1 ∧
      extractThemes "abc 100" ≠ specFirstSeenThemes "abc 100" := by
  refine ⟨rfl, rfl, rfl, rfl, rfl, by decide⟩

/-! Properties of the stable insertion sort used to model the
(required-stable) `Array.prototype.sort`. -/

theorem insertLe_perm (le : α → α → Bool) (x : α) (l : List α) :
    List.Perm (insertLe le x l) (x :: l) := by
  induction l with
  | nil => exact List.Perm.refl _
  | cons y ys ih =>
    unfold insertLe
    split
    · exact (ih.cons y).trans (List.Perm.swap x y ys)
    · exact List.Perm.refl _

theorem stableSort_aux_perm (le : α → α → Bool) (l : List α) :
    ∀ acc : List α,
      List.Perm (l.foldl (fun a x => insertLe le x a) acc) (acc ++ l) := by
  induction l with
  | nil => intro acc; simp
  | cons x xs ih =>
    intro acc
    rw [List.foldl_cons]
    exact ((ih (insertLe le x acc)).trans
      (((insertLe_perm le x acc).append_right xs).trans List.perm_middle.symm))

theorem stableSort_perm (le : α → α → Bool) (l : List α) :
    List.Perm (stableSort le l) l := by
  simpa using stableSort_aux_perm le l []

theorem insertLe_pairwise (le : α → α → Bool)
    (htrans : ∀ a b c, le a b = true → le b c = true → le a c = true)
    (htotal : ∀ a b, le a b = true ∨ le b a = true)
    (x : α) (l : List α) (h : l.Pairwise (fun a b => le a b = true)) :
    (insertLe le x l).Pairwise (fun a b => le a b = true) := by
  induction l with
  | nil => simp [insertLe]
  | cons y ys ih =>
    rcases List.pairwise_cons.mp h with ⟨hy, hys⟩
    unfold insertLe
    split
    · rename_i hyx
      refine List.pairwise_cons.mpr ⟨?_, ih hys⟩
      intro b hb
      cases List.mem_cons.mp ((insertLe_perm le x ys).mem_iff.mp hb) with
      | inl hbx => exact hbx ▸ hyx
      | inr hbys => exact hy b hbys
    · rename_i hyx
      have hxy : le x y = true := by
        rcases htotal x y with hh | hh
        · exact hh
        · exact absurd hh hyx
      refine List.pairwise_cons.mpr ⟨?_, h⟩
      intro b hb
      cases List.mem_cons.mp hb with
      | inl hby => exact hby ▸ hxy
      | inr hbys => exact htrans x y b hxy (hy b hbys)

theorem stableSort_aux_pairwise (le : α → α → Bool)
    (htrans : ∀ a b c, le a b = true → le b c = true → le a c = true)
    (htotal : ∀ a b, le a b = true ∨ le b a = true) (l : List α) :
    ∀ acc : List α, acc.Pairwise (fun a b => le a b = true) →
      (l.foldl (fun a x => insertLe le x a) acc).Pairwise
        (fun a b => le a b = true) := by
  induction l with
  | nil => intro acc hacc; exact hacc
  | cons x xs ih =>
    intro acc hacc
    rw [List.foldl_cons]
    exact ih _ (insertLe_pairwise le htrans htotal x acc hacc)

theorem stableSort_pairwise (le : α → α → Bool)
    (htrans : ∀ a b c, le a b = true → le b c = true → le a c = true)
    (htotal : ∀ a b, le a b = true ∨ le b a = true) (l : List α) :
    (stableSort le l).Pairwise (fun a b => le a b = true) :=
  stableSort_aux_pairwise le htrans htotal l [] (by simp)

theorem insertLe_filter_neg (le : α → α → Bool) (p : α → Bool) (x : α)
    (l : List α) (hx : p x = false) :
    (insertLe le x l).filter p = l.filter p := by
  induction l with
  | nil => simp [insertLe, hx]
  | cons y ys ih =>
    unfold insertLe
    split
    · cases hpy : p y <;> simp [List.filter_cons, hpy, ih]
    · simp [List.filter_cons, hx]

theorem insertLe_filter_pos (le : α → α → Bool) (p : α → Bool) (x : α)
    (l : List α) (hx : p x = true)
    (hdrophd : ∀ y, le y x = false → p y = false)
    (hdrop : ∀ y z, le y x = false → le y z = true → p z = false)
    (hsorted : l.Pairwise (fun a b => le a b = true)) :
    (insertLe le x l).filter p = l.filter p ++ [x] := by
  induction l with
  | nil => simp [insertLe, hx]
  | cons y ys ih =>
    rcases List.pairwise_cons.mp hsorted with ⟨hy, hys⟩
    unfold insertLe
    split
    · cases hpy : p y <;> simp [List.filter_cons, hpy, ih hys]
    · rename_i hyx
      have hyx' : le y x = false := eq_false_of_ne_true hyx
      have hpy : p y = false := hdrophd y hyx'
      have htail : (y :: ys).filter p = [] := by
        rw [List.filter_cons_of_neg (by simp [hpy])]
        exact List.filter_eq_nil_iff.mpr
          (fun z hz => by simp [hdrop y z hyx' (hy z hz)])
      rw [List.filter_cons_of_pos (by simp [hx]), htail]
      rfl

/-- The defining property of a stable sort under a consistent comparator:
restricted to any class of mutually tied elements, the output keeps the
input order. -/
theorem stableSort_filter (le : α → α → Bool) (p : α → Bool)
    (htrans : ∀ a b c, le a b = true → le b c = true → le a c = true)
    (htotal : ∀ a b, le a b = true ∨ le b a = true)
    (hdrophd : ∀ x y, p x = true → le y x = false → p y = false)
    (hdrop : ∀ x y z, p x = true → le y x = false → le y z = true → p z = false) :
    ∀ (l acc : List α), acc.Pairwise (fun a b => le a b = true) →
      (l.foldl (fun a x => insertLe le x a) acc).filter p
        = acc.filter p ++ l.filter p := by
  intro l
  induction l with
  | nil => intro acc _; simp
  | cons x xs ih =>
    intro acc hacc
    rw [List.foldl_cons, ih _ (insertLe_pairwise le htrans htotal x acc hacc)]
    cases hpx : p x with
    | true =>
      rw [insertLe_filter_pos le p x acc hpx (fun y => hdrophd x y hpx)
          (fun y z => hdrop x y z hpx) hacc,
        List.filter_cons_of_pos (by simp [hpx])]
      simp
    | false =>
      rw [insertLe_filter_neg le p x acc hpx,
        List.filter_cons_of_neg (by simp [hpx])]

/-! Keys of the frequency map: distinct, in first-seen order, and drawn
from the token stream. -/

theorem bumpFreq_keys (m : List (String × Nat)) (t : String) :
    (bumpFreq m t).map Prod.fst =
      if t ∈ m.map Prod.fst then m.map Prod.fst else m.map Prod.fst ++ [t] := by
  induction m with
  | nil => simp [bumpFreq]
  | cons kv rest ih =>
    obtain ⟨k, n⟩ := kv
    unfold bumpFreq
    by_cases hk : k = t
    · subst hk
      simp
    · have hne : ¬ t = k := fun h => hk h.symm
      simp only [if_neg hk, List.map_cons, List.mem_cons, hne, false_or, ih]
      split <;> simp

theorem buildFreq_aux_keys_nodup (tokens : List String) :
    ∀ acc : List (String × Nat), (acc.map Prod.fst).Nodup →
      ((tokens.foldl bumpFreq acc).map Prod.fst).Nodup := by
  induction tokens with
  | nil => intro acc h; exact h
  | cons t ts ih =>
    intro acc h
    rw [List.foldl_cons]
    refine ih (bumpFreq acc t) ?_
    rw [bumpFreq_keys]
    split
    · exact h
    · rename_i hmem
      rw [List.nodup_append]
      refine ⟨h, List.nodup_singleton t, ?_⟩
      intro a ha hb
      rw [List.mem_singleton] at hb
      exact hmem (hb ▸ ha)

theorem buildFreq_keys_nodup (tokens : List String) :
    ((buildFreq tokens).map Prod.fst).Nodup :=
  buildFreq_aux_keys_nodup (tokens.filter keepToken) [] (by simp)

theorem buildFreq_aux_keys_subset (tokens : List String) :
    ∀ acc : List (String × Nat),
      ∀ a ∈ (tokens.foldl bumpFreq acc).map Prod.fst,
        a ∈ acc.map Prod.fst ∨ a ∈ tokens := by
  induction tokens with
  | nil => intro acc a ha; exact Or.inl ha
  | cons t ts ih =>
    intro acc a ha
    rw [List.foldl_cons] at ha
    rcases ih (bumpFreq acc t) a ha with hacc | hts
    · rw [bumpFreq_keys] at hacc
      split at hacc
      · exact Or.inl hacc
      · rcases List.mem_append.mp hacc with h1 | h1
        · exact Or.inl h1
        · simp only [List.mem_singleton] at h1
          exact Or.inr (h1 ▸ List.mem_cons_self t ts)
    · exact Or.inr (List.mem_cons_of_mem t hts)

theorem buildFreq_keys_subset (tokens : List String) :
    ∀ a ∈ (buildFreq tokens).map Prod.fst, a ∈ tokens.filter keepToken := by
  intro a ha
  rcases buildFreq_aux_keys_subset (tokens.filter keepToken) [] a ha with h | h
  · simp at h
  · exact h

/-! Tokens produced by the splitter are non-empty runs of token
characters. -/

theorem tokenRunsAcc_tokens (l : List Char) :
    ∀ acc : List Char, acc.all isTokenChar = true →
      ∀ t ∈ tokenRunsAcc acc l, t ≠ "" ∧ t.toList.all isTokenChar = true := by
  induction l with
  | nil =>
    intro acc hacc t ht
    simp only [tokenRunsAcc] at ht
    split at ht
    · simp at ht
    · rename_i hne
      rcases List.mem_singleton.mp ht with rfl
      constructor
      · simpa [String.ext_iff] using fun h => hne (by simpa using congrArg List.reverse h)
      · simpa using hacc
  | cons c cs ih =>
    intro acc hacc t ht
    simp only [tokenRunsAcc] at ht
    split at ht
    · rename_i hc
      exact ih (c :: acc) (by simp_all) t ht
    · split at ht
      · exact ih [] (by simp) t ht
      · rename_i hne
        rcases List.mem_cons.mp ht with rfl | ht2
        · constructor
          · simpa [String.ext_iff] using fun h => hne (by simpa using congrArg List.reverse h)
          · simpa using hacc
        · exact ih [] (by simp) t ht2

theorem jsTokens_tokens (text : String) :
    ∀ t ∈ jsTokens text, t ≠ "" ∧ t.toList.all isTokenChar = true :=
  tokenRunsAcc_tokens _ [] (by simp)

/-! `Object.keys` order: distinct keys drawn from the map. -/

theorem objectKeysOrder_nodup (m : List (String × Nat))
    (h : (m.map Prod.fst).Nodup) : (objectKeysOrder m).Nodup := by
  show (stableSort (fun a b => decide (natOfDigits a.toList ≤ natOfDigits b.toList))
      ((m.map Prod.fst).filter isArrayIndexKey)
    ++ (m.map Prod.fst).filter (fun k => !isArrayIndexKey k)).Nodup
  refine List.Nodup.append
    (((stableSort_perm _ _).symm).nodup (h.filter _)) (h.filter _) ?_
  intro a ha1 ha2
  have h1 : isArrayIndexKey a = true :=
    List.of_mem_filter ((stableSort_perm _ _).mem_iff.mp ha1)
  have h2 := (List.mem_filter.mp ha2).2
  simp [h1] at h2

theorem objectKeysOrder_subset (m : List (String × Nat)) :
    ∀ a ∈ objectKeysOrder m, a ∈ m.map Prod.fst := by
  intro a ha
  have ha2 : a ∈ stableSort
      (fun a b => decide (natOfDigits a.toList ≤ natOfDigits b.toList))
      ((m.map Prod.fst).filter isArrayIndexKey)
    ++ (m.map Prod.fst).filter (fun k => !isArrayIndexKey k) := ha
  rcases List.mem_append.mp ha2 with h1 | h1
  · exact List.mem_of_mem_filter ((stableSort_perm _ _).mem_iff.mp h1)
  · exact List.mem_of_mem_filter h1

/-- The comparator `(a,b) => freq[b] - freq[a]` is transitive. -/
theorem freqDescLe_trans (m : List (String × Nat)) :
    ∀ a b c, freqDescLe m a b = true → freqDescLe m b c = true →
      freqDescLe m a c = true := by
  intro a b c hab hbc
  simp only [freqDescLe, decide_eq_true_eq] at *
  omega

/-- The comparator is total. -/
theorem freqDescLe_total (m : List (String × Nat)) :
    ∀ a b, freqDescLe m a b = true ∨ freqDescLe m b a = true := by
  intro a b
  simp only [freqDescLe, decide_eq_true_eq]
  omega

/-- Stability of the theme ranking: within any frequency class, the
ranking preserves the `Object.keys` enumeration order. -/
theorem rankedThemes_filter (text : String) (c : Nat) :
    (rankedThemes text).filter
        (fun t => freqOf (buildFreq (jsTokens text)) t == c)
      = (objectKeysOrder (buildFreq (jsTokens text))).filter
          (fun t => freqOf (buildFreq (jsTokens text)) t == c) := by
  have h := stableSort_filter (freqDescLe (buildFreq (jsTokens text)))
    (fun t => freqOf (buildFreq (jsTokens text)) t == c)
    (freqDescLe_trans _) (freqDescLe_total _)
    (by
      intro x y hx hyx
      simp only [beq_iff_eq] at hx
      have h1 : ¬ (freqOf (buildFreq (jsTokens text)) x
          ≤ freqOf (buildFreq (jsTokens text)) y) := by
        simpa [freqDescLe] using hyx
      simp only [beq_eq_false_iff_ne, ne_eq]
      omega)
    (by
      intro x y z hx hyx hyz
      simp only [beq_iff_eq] at hx
      have h1 : ¬ (freqOf (buildFreq (jsTokens text)) x
          ≤ freqOf (buildFreq (jsTokens text)) y) := by
        simpa [freqDescLe] using hyx
      have h2 : freqOf (buildFreq (jsTokens text)) z
          ≤ freqOf (buildFreq (jsTokens text)) y := by
        simpa [freqDescLe] using hyz
      simp only [beq_eq_false_iff_ne, ne_eq]
      omega)
    (objectKeysOrder (buildFreq (jsTokens text))) [] (by simp)
  simpa [stableSort, rankedThemes] using h

/-- **C6, amended.**  Theme extraction returns at most 5 distinct
lowercase alphanumeric tokens ordered by non-increasing frequency; ties
are broken by the `Object.keys` enumeration order of the frequency object
— array-index-like tokens (such as `"100"`) first in ascending numeric
order, then the remaining tokens in first-encountered order — not by
first-encountered position alone (see the counterexample).  The
extraction is a pure function of the text, so running it twice on the
same text trivially yields the identical ordered list. -/
theorem c6_amended (text : String) :
    ((extractThemes text).length ≤ 5) ∧
    (extractThemes text).Nodup ∧
    (∀ t ∈ extractThemes text, t ≠ "" ∧ t.toList.all isTokenChar = true) ∧
    ((extractThemes text).Pairwise (fun a b =>
      freqOf (buildFreq (jsTokens text)) b ≤ freqOf (buildFreq (jsTokens text)) a)) ∧
    (∀ c : Nat, (rankedThemes text).filter
        (fun t => freqOf (buildFreq (jsTokens text)) t == c)
      = (objectKeysOrder (buildFreq (jsTokens text))).filter
          (fun t => freqOf (buildFreq (jsTokens text)) t == c)) ∧
    (extractThemes text = (rankedThemes text).take 5) := by
  have hperm : List.Perm (rankedThemes text)
      (objectKeysOrder (buildFreq (jsTokens text))) := stableSort_perm _ _
  have hnodupKeys := objectKeysOrder_nodup _ (buildFreq_keys_nodup (jsTokens text))
  have hnodupRanked : (rankedThemes text).Nodup := hperm.symm.nodup hnodupKeys
  refine ⟨?_, ?_, ?_, ?_, rankedThemes_filter text, rfl⟩
  · exact List.length_take_le 5 _
  · exact hnodupRanked.sublist (List.take_sublist _ _)
  · intro t ht
    have h1 : t ∈ rankedThemes text := List.take_subset _ _ ht
    have h3 := objectKeysOrder_subset _ t (hperm.mem_iff.mp h1)
    have h4 := buildFreq_keys_subset _ t h3
    exact jsTokens_tokens text t (List.mem_of_mem_filter h4)
  · have hp := stableSort_pairwise (freqDescLe (buildFreq (jsTokens text)))
      (freqDescLe_trans _) (freqDescLe_total _)
      (objectKeysOrder (buildFreq (jsTokens text)))
    have hp2 : (rankedThemes text).Pairwise (fun a b =>
        freqOf (buildFreq (jsTokens text)) b ≤ freqOf (buildFreq (jsTokens text)) a) := by
      refine hp.imp ?_
      intro a b hab
      simpa [freqDescLe] using hab
    exact hp2.sublist (List.take_sublist _ _)

/-- **C6, witness** for the amended theorem: a concrete text whose theme
list contains a concrete member, discharging the membership hypothesis of
the lowercase-token conjunct. -/
theorem c6_amended_witness :
    "sale" ∈ extractThemes "big sale sale" ∧
      ("sale" ≠ "" ∧ "sale".toList.all isTokenChar = true) :=
  ⟨by decide, (c6_amended "big sale sale").2.2.1 "sale" (by decide)⟩

/-! ### C7 — empty keyword fails early with `missing_parameter` -/

/-- **C7.**  With the API key configured and a keyword that trims to the
empty string, the pipeline answers 400 `missing_parameter` whatever the
upstream would have said — the conclusion holds for every listing result
and every oracle, which is the shallow-embedding statement of "no
upstream call is made" (the keyword check precedes the listing fetch in
the source). -/
theorem c7_empty_keyword (env : Env) (input : Input)
    (hkey : apiKeyOk env = true) (hkw : keywordOf input = "") :
    ∀ (listing : ListingResult) (tO : TemplateOracle) (mO : MetricsOracle),
      runSearchCampaigns env input listing tO mO =
        .error 400 "missing_parameter" := by
  intro listing tO mO
  simp [runSearchCampaigns, hkey, hkw]

/-! Concrete fixtures shared by the end-to-end witnesses. -/

def envA : Env :=
  { newKey := some "k", oldKey := none, defaultDays := .int 90,
    fetchAvailable := true }

def tO0 : TemplateOracle := fun _ => ""

def mO0 : MetricsOracle := fun _ _ => none

def itemA : J :=
  .obj [("id", .str "a"),
        ("attributes", .obj [("name", .str "Summer One"),
                             ("subject", .str "Get 20% off")])]

def itemB : J :=
  .obj [("id", .str "b"), ("attributes", .obj [("name", .str "summer two")])]

def itemC : J :=
  .obj [("id", .str "c"), ("attributes", .obj [("name", .str "Winter")])]

def listingA : ListingResult :=
  { ok := true, body := some (.obj [("data", .arr [itemA, itemB, itemC])]) }

def inputEmptyKw : Input :=
  { keyword := some (.str "   "), days := none, limit := none }

/-- **C7, witness**: a blank keyword with a configured key yields the
400 at a concrete listing and concrete oracles. -/
theorem c7_empty_keyword_witness :
    apiKeyOk envA = true ∧ keywordOf inputEmptyKw = "" ∧
      runSearchCampaigns envA inputEmptyKw listingA tO0 mO0 =
        .error 400 "missing_parameter" :=
  ⟨rfl, rfl, c7_empty_keyword envA inputEmptyKw rfl rfl listingA tO0 mO0⟩

/-! ### C2 — `campaign_count` counts after truncation, not before -/

/-- The payload of a successful response (`d` for the error case). -/
def payloadOr (d : Output) (r : Response) : Output :=
  match r with
  | .success o => o
  | .error _ _ => d

def emptyOutput : Output :=
  { keyword := "", campaign_count := 0, subject_lines := [],
    performance_metrics := [], themes := [], campaigns := [],
    days_used := .int 0, requested_limit := 0 }

/-- `keyword "summer"`, `limit 1`: three listed campaigns of which two
match. -/
def inputC2 : Input :=
  { keyword := some (.str "summer"), days := none, limit := some (.num (.int 1)) }

def outC2 : Output :=
  payloadOr emptyOutput (runSearchCampaigns envA inputC2 listingA tO0 mO0)

/-- **C2, counterexample.**  Two campaigns match the keyword before
truncation (`matchedAllOf`), but with `limit = 1` the success payload
reports `campaign_count = 1` — the count after truncation — where the
claim requires the pre-truncation count 2. -/
theorem c2_counterexample :
    runSearchCampaigns envA inputC2 listingA tO0 mO0 = .success outC2 ∧
      (match matchedAllOf (keywordOf inputC2) listingA.body with
        | .ok l => l.length
        | .error _ => 0) = 2 ∧
      outC2.campaign_count = 1 ∧ outC2.campaigns.length = 1 := by
  exact ⟨rfl, rfl, rfl, rfl⟩

/-- **C2, amended.**  In every success payload `campaign_count` equals
the number of campaigns after truncation to the limit — i.e. the length
of the enriched `campaigns` array — not the size of the filtered list
before truncation. -/
theorem c2_amended (env : Env) (input : Input) (listing : ListingResult)
    (tO : TemplateOracle) (mO : MetricsOracle) (o : Output)
    (h : runSearchCampaigns env input listing tO mO = .success o) :
    o.campaign_count = o.campaigns.length := by
  simp only [runSearchCampaigns] at h
  split at h
  · exact Response.noConfusion h
  split at h
  · exact Response.noConfusion h
  split at h
  · exact Response.noConfusion h
  split at h
  · exact Response.noConfusion h
  split at h
  · exact Response.noConfusion h
  injection h with h2
  subst h2
  simp [assembleOutput]

/-- **C2, witness** for the amended theorem at the concrete successful
run of the counterexample fixtures. -/
theorem c2_amended_witness : outC2.campaign_count = outC2.campaigns.length :=
  c2_amended envA inputC2 listingA tO0 mO0 outC2 rfl

/-! ### C8 — normalized `subject_lines` and `id` invariants -/

/-- Nothing that survives `setDedupAux` is `Set`-equal to a value already
seen. -/
theorem setDedupAux_svz_false (l : List J) :
    ∀ (seen : List J) (a : J), a ∈ seen →
      ∀ b ∈ setDedupAux l seen, svz a b = false := by
  induction l with
  | nil =>
    intro seen a _ b hb
    simp [setDedupAux] at hb
  | cons x xs ih =>
    intro seen a ha b hb
    simp only [setDedupAux] at hb
    split at hb
    · exact ih seen a ha b hb
    · rename_i hcheck
      rcases List.mem_cons.mp hb with rfl | hb2
      · have hfalse : seen.any (fun y => svz y b) = false :=
          Bool.not_eq_true _ ▸ eq_false_of_ne_true hcheck
        have hnot := List.any_eq_false.mp hfalse a ha
        simpa using hnot
      · exact ih (x :: seen) a (List.mem_cons_of_mem _ ha) b hb2

/-- The deduplicated list is pairwise distinct under `Set` equality. -/
theorem setDedupAux_pairwise (l : List J) :
    ∀ seen : List J, (setDedupAux l seen).Pairwise (fun a b => svz a b = false) := by
  induction l with
  | nil => intro seen; simp [setDedupAux]
  | cons x xs ih =>
    intro seen
    simp only [setDedupAux]
    split
    · exact ih seen
    · exact List.Pairwise.cons
        (fun b hb => setDedupAux_svz_false xs (x :: seen) x (List.mem_cons_self _ _) b hb)
        (ih (x :: seen))

/-- **C8.**  For every raw campaign resource (and inline `included`
resources), the normalized campaign's `subject_lines` contains only
truthy entries (no empty strings, no other falsy values) and no two
entries equal under the `Set` equality used for deduplication; the `id` is
a string or null by construction (`id ? String(id) : null`), never a
number.  The hypothesis restricts the subject candidates to primitive
values — the domain on which the model's structural `svz` coincides with
the reference semantics of the source's `new Set` (two structurally equal
composite values parsed at different places are distinct references and
would both survive the `Set`). -/
theorem c8_normalize_invariants (includedMessages : List J) (item : J)
    (_hprim : (subjectCandidates includedMessages item).all J.isPrim = true) :
    (∀ v ∈ (normalizeItem includedMessages item).subject_lines,
        jTruthy (some v) = true) ∧
    (normalizeItem includedMessages item).subject_lines.Pairwise
      (fun a b => svz a b = false) ∧
    ((normalizeItem includedMessages item).id = none ∨
      ∃ s : String, (normalizeItem includedMessages item).id = some s) := by
  refine ⟨?_, ?_, ?_⟩
  · intro v hv
    simp only [normalizeItem] at hv
    exact (List.mem_filter.mp hv).2
  · simp only [normalizeItem]
    exact List.Pairwise.filter _ (setDedupAux_pairwise _ [])
  · simp only [normalizeItem]
    cases rawIdOf item with
    | none => exact Or.inl rfl
    | some v => exact Or.inr ⟨jToString v, rfl⟩

def itemC8 : J :=
  .obj [("id", J.num (JsNum.int 42)),
        ("attributes",
          .obj [("subject_lines", .arr [J.str "dup", J.str "", J.str "s2"]),
                ("subject", J.str "dup")])]

/-- **C8, witness**: a raw item with a numeric id, a duplicated subject
and an empty subject entry; the hypothesis holds and the normalized
campaign satisfies the invariants (indeed `subject_lines` evaluates to
`["dup", "s2"]` and `id` to `some "42"`). -/
theorem c8_normalize_invariants_witness :
    (subjectCandidates [] itemC8).all J.isPrim = true ∧
      ((∀ v ∈ (normalizeItem [] itemC8).subject_lines,
          jTruthy (some v) = true) ∧
        (normalizeItem [] itemC8).subject_lines.Pairwise
          (fun a b => svz a b = false) ∧
        ((normalizeItem [] itemC8).id = none ∨
          ∃ s : String, (normalizeItem [] itemC8).id = some s)) :=
  ⟨rfl, c8_normalize_invariants [] itemC8 rfl⟩

/-! ### C9 — output arrays follow the truncated match order -/

/-- **C9.**  The assembly step emits, for every campaign of the truncated
matched list in its order: exactly one `performance_metrics` entry, one
`themes` entry and one `campaigns` record — each carrying that campaign's
id — and one flattened `subject_lines` pair per subject, also in match
order.  (The model renders the source's sequential loop directly as maps
over `matched`; the loop only appends, so completion order of the
enrichment calls cannot reorder anything.) -/
theorem c9_output_alignment (keyword : String) (days : JsNum) (limit : Int)
    (matched : List NormCampaign) (tO : TemplateOracle) (mO : MetricsOracle) :
    ((assembleOutput keyword days limit matched tO mO).performance_metrics.map
        (fun e => e.campaign_id) = matched.map (fun c => c.id)) ∧
    ((assembleOutput keyword days limit matched tO mO).themes.map
        (fun e => e.campaign_id) = matched.map (fun c => c.id)) ∧
    ((assembleOutput keyword days limit matched tO mO).campaigns.map
        (fun r => r.id) = matched.map (fun c => c.id)) ∧
    ((assembleOutput keyword days limit matched tO mO).subject_lines
        = matched.flatMap (fun c => c.subject_lines.map
            (fun subj => { campaign_id := c.id, subject := subj }))) ∧
    ((assembleOutput keyword days limit matched tO mO).performance_metrics.length
        = matched.length) ∧
    ((assembleOutput keyword days limit matched tO mO).themes.length
        = matched.length) ∧
    ((assembleOutput keyword days limit matched tO mO).campaigns.length
        = matched.length) := by
  refine ⟨?_, ?_, ?_, rfl, ?_, ?_, ?_⟩ <;>
    simp [assembleOutput, List.map_map, perfEntryOf, campaignRecordOf]

/-! ### C10 — unrecognized listing bodies degrade to an empty success -/

/-- The listing shapes the `rawItems` dispatch recognizes: a `data`
array, a top-level array, a `campaigns` field, or a `results` field. -/
def recognizedListingShape (j : J) : Prop :=
  (∃ xs, jget j "data" = some (.arr xs)) ∨ (∃ xs, j = J.arr xs) ∨
    (jget j "campaigns").isSome ∨ (jget j "results").isSome

/-- An invalid-JSON body, or a JSON body in none of the recognized
shapes, yields an empty item list. -/
theorem rawItemsDispatch_empty (j : J)
    (hcamp : jget j "campaigns" = none) (hres : jget j "results" = none)
    (hdata : ∀ xs, jget j "data" ≠ some (J.arr xs))
    (harr : ∀ xs, j ≠ J.arr xs) :
    rawItemsDispatch j = .ok [] := by
  cases j with
  | arr xs => exact absurd rfl (harr xs)
  | null => rfl
  | bool b => rfl
  | num n => rfl
  | str t => rfl
  | obj fs =>
    unfold rawItemsDispatch
    cases hd : jget (J.obj fs) "data" with
    | none => simp [hd, hcamp, hres, jOr, jValOr, jTruthy]
    | some v =>
      cases v with
      | arr xs => exact absurd hd (hdata xs)
      | null => simp [hd, hcamp, hres, jOr, jValOr, jTruthy]
      | bool b => simp [hd, hcamp, hres, jOr, jValOr, jTruthy]
      | num n => simp [hd, hcamp, hres, jOr, jValOr, jTruthy]
      | str t => simp [hd, hcamp, hres, jOr, jValOr, jTruthy]
      | obj gs => simp [hd, hcamp, hres, jOr, jValOr, jTruthy]

theorem rawItemsOf_empty (body : Option J)
    (h : body = none ∨ ∃ j, body = some j ∧ ¬ recognizedListingShape j) :
    rawItemsOf body = .ok [] := by
  rcases h with rfl | ⟨j, rfl, hshape⟩
  · rfl
  · have hcamp : jget j "campaigns" = none := by
      cases hc : jget j "campaigns" with
      | none => rfl
      | some v =>
        exact absurd (Or.inr (Or.inr (Or.inl (by simp [hc])))) hshape
    have hres : jget j "results" = none := by
      cases hc : jget j "results" with
      | none => rfl
      | some v =>
        exact absurd (Or.inr (Or.inr (Or.inr (by simp [hc])))) hshape
    have hdata : ∀ xs, jget j "data" ≠ some (J.arr xs) :=
      fun xs hx => hshape (Or.inl ⟨xs, hx⟩)
    have harr : ∀ xs, j ≠ J.arr xs :=
      fun xs hx => hshape (Or.inr (Or.inl ⟨xs, hx⟩))
    show rawItemsDispatch (jsonOrEmpty (some j)) = .ok []
    by_cases ht : jTruthy (some j) = true
    · rw [show jsonOrEmpty (some j) = j by simp [jsonOrEmpty, ht]]
      exact rawItemsDispatch_empty j hcamp hres hdata harr
    · rw [show jsonOrEmpty (some j) = J.obj [] by simp [jsonOrEmpty, ht]]
      rfl

/-- **C10.**  On a 2xx listing whose body is invalid JSON or JSON in none
of the recognized shapes, the pipeline returns a 200 success payload with
`campaign_count = 0` and all four arrays empty, rather than an error. -/
theorem c10_unrecognized_listing (env : Env) (input : Input)
    (listing : ListingResult) (tO : TemplateOracle) (mO : MetricsOracle)
    (hkey : apiKeyOk env = true) (hkw : keywordOf input ≠ "")
    (hfetch : env.fetchAvailable = true) (hok : listing.ok = true)
    (hbody : listing.body = none ∨
      ∃ j, listing.body = some j ∧ ¬ recognizedListingShape j) :
    ∃ o : Output, runSearchCampaigns env input listing tO mO = .success o ∧
      o.campaign_count = 0 ∧ o.subject_lines = [] ∧
      o.performance_metrics = [] ∧ o.themes = [] ∧ o.campaigns = [] := by
  have hraw := rawItemsOf_empty listing.body hbody
  have hmatched : matchedAllOf (keywordOf input) listing.body = .ok [] := by
    simp [matchedAllOf, allCampaignsOf, hraw, Except.map]
  have hsl : jsSliceTo ([] : List NormCampaign) (clampLimit input.limit) = [] := by
    unfold jsSliceTo
    split <;> simp
  refine ⟨assembleOutput (keywordOf input) (daysOf input env)
    (clampLimit input.limit) [] tO mO, ?_, rfl, rfl, rfl, rfl, rfl⟩
  simp [runSearchCampaigns, hkey, hkw, hfetch, hok, hmatched, hsl]

def listingInvalid : ListingResult := { ok := true, body := none }

def inputPlain : Input :=
  { keyword := some (.str "sale"), days := none, limit := none }

/-- **C10, witness** at a concrete 2xx listing whose body is not valid
JSON. -/
theorem c10_unrecognized_listing_witness :
    apiKeyOk envA = true ∧ keywordOf inputPlain ≠ "" ∧
      (∃ o : Output,
        runSearchCampaigns envA inputPlain listingInvalid tO0 mO0 = .success o ∧
          o.campaign_count = 0 ∧ o.subject_lines = [] ∧
          o.performance_metrics = [] ∧ o.themes = [] ∧ o.campaigns = []) :=
  ⟨rfl, by decide,
    c10_unrecognized_listing envA inputPlain listingInvalid tO0 mO0 rfl
      (by decide) rfl rfl (Or.inl rfl)⟩

end Klaviyo
